import Mathlib

/-!
Shallow embedding of the BMI calculator web application (`src/main.go`).

Modelling conventions:
* Go `float64` values flowing through the BMI arithmetic and the
  classification brackets are embedded as rationals `ℚ`; the decimal
  literals in the source (`18.5`, `24.9`, …) are exact as rationals.
* The persisted JSON file is embedded at the level of its parse tree
  (`Json` below); `json.MarshalIndent` is deterministic, so equality of
  the marshalled trees coincides with byte equality of the file content.
* `log.Fatalf` (process termination) is the `LoadOutcome.fatal`
  constructor; the index-out-of-range panic in the root handler is the
  `none` result of `rootHandler`.
* HTTP responses are the `Response` inductive; the handler's observable
  effects (form reading, record append, file write attempt, error
  logging) are fields of `HandlerResult`.
-/

/-- The `User` struct of `main.go` (the Record of the spec). -/
structure User where
  name : String
  weightKg : ℚ
  heightM : ℚ
  bmi : ℚ
  category : String
  deriving Repr, DecidableEq

/-- `ViewModel` of `main.go`: data handed to the template.  The Go field
`Message` is a `string` that is either set or left empty; we embed it as
`Option String`. -/
structure ViewModel where
  users : List User
  message : Option String
  deriving Repr, DecidableEq

/-- `calculateBMI` of `main.go`: returns `0.0` when `heightM <= 0`,
otherwise `weightKg / (heightM * heightM)`. -/
def calculateBMI (weightKg heightM : ℚ) : ℚ :=
  if heightM ≤ 0 then 0
  else weightKg / (heightM * heightM)

/-- `getBMICategory` of `main.go`: the four-way bracket switch with a
default branch. -/
def getBMICategory (bmi : ℚ) : String :=
  if bmi < 18.5 then "Underweight"
  else if 18.5 ≤ bmi ∧ bmi ≤ 24.9 then "Normal Weight"
  else if 25.0 ≤ bmi ∧ bmi ≤ 29.9 then "Overweight"
  else if 30.0 ≤ bmi then "Obesity"
  else "Cannot interpret"

/-- JSON parse trees: the persisted file content at the level that
`encoding/json` sees it.  `json.MarshalIndent` prints a tree
deterministically, so equality of trees is equality of file bytes. -/
inductive Json where
  | num (q : ℚ)
  | str (s : String)
  | arr (elems : List Json)
  | obj (fields : List (String × Json))
  deriving Repr

/-- Marshalling of one `User` record: the struct tags of `main.go` fix
the key names and the field order `name, weight_kg, height_m, bmi,
category`. -/
def marshalUser (u : User) : Json :=
  .obj [("name", .str u.name), ("weight_kg", .num u.weightKg),
        ("height_m", .num u.heightM), ("bmi", .num u.bmi),
        ("category", .str u.category)]

/-- Marshalling of the full record slice: a JSON array, as
`json.MarshalIndent(users, "", "  ")` produces. -/
def marshalUsers (users : List User) : Json :=
  .arr (users.map marshalUser)

/-- Unmarshalling of one record object, inverse of `marshalUser`. -/
def unmarshalUser : Json → Option User
  | .obj [("name", .str n), ("weight_kg", .num w), ("height_m", .num h),
          ("bmi", .num b), ("category", .str c)] =>
    some ⟨n, w, h, b, c⟩
  | _ => none

/-- Unmarshalling of the persisted array into a record list, inverse of
`marshalUsers`; `none` is `json.Unmarshal` returning an error. -/
def unmarshalUsers : Json → Option (List User)
  | .arr elems => elems.mapM unmarshalUser
  | _ => none

/-- What `os.ReadFile(dataFile)` can report in `loadUserData`. -/
inductive FileRead where
  | notExist
  | readErr
  | content (j : Json)

/-- Outcome of `loadUserData`: either the loaded record list, or
process termination via `log.Fatalf`. -/
inductive LoadOutcome where
  | ok (users : List User)
  | fatal
  deriving Repr, DecidableEq

/-- `loadUserData` of `main.go`: a missing file yields the empty list; a
read error or an unmarshal error calls `log.Fatalf`. -/
def loadUserData : FileRead → LoadOutcome
  | .notExist => .ok []
  | .readErr => .fatal
  | .content j =>
    match unmarshalUsers j with
    | some users => .ok users
    | none => .fatal

/-- `saveUserData` of `main.go`, up to the file write: the content
handed to `os.WriteFile` is the marshalled current record list. -/
def saveUserData (users : List User) : Json :=
  marshalUsers users

/-- One `save(load())` pass over persisted file content: load the file,
and if the process survives, write back the marshalled result.  `none`
is the fatal-exit case. -/
def saveAfterLoad (j : Json) : Option Json :=
  match loadUserData (.content j) with
  | .ok users => some (saveUserData users)
  | .fatal => none

/-- The slice of an incoming request that `calculateHandler` looks at.
`weight`/`height` carry the result of `strconv.ParseFloat` on the
corresponding form field: `none` is a parse error (`err != nil`). -/
structure Request where
  method : String
  parseFormOk : Bool
  name : String
  weight : Option ℚ
  height : Option ℚ

/-- HTTP responses the handlers produce. -/
inductive Response where
  | error (msg : String) (code : Nat)
  | redirect (loc : String) (code : Nat)
  deriving Repr, DecidableEq

/-- The 400 message of `calculateHandler` for bad numeric input. -/
def invalidInputMsg : String :=
  "Invalid input. Please enter valid positive numbers for weight and height."

/-- Observable outcome of one `calculateHandler` call: the response,
the record list afterwards, whether `r.ParseForm` was reached, the
content handed to `os.WriteFile` (if a write was attempted), and
whether a save failure was logged. -/
structure HandlerResult where
  response : Response
  users : List User
  formRead : Bool
  savedFile : Option Json
  loggedSaveError : Bool
  deriving Repr

/-- `calculateHandler` of `main.go`.  `writeFails` is whether the
`os.WriteFile` call inside `saveUserData` returns an error. -/
def calculateHandler (req : Request) (users : List User)
    (writeFails : Bool) : HandlerResult :=
  if req.method ≠ "POST" then
    ⟨.error "Method not allowed" 405, users, false, none, false⟩
  else if ¬ req.parseFormOk then
    ⟨.error "Error parsing form data" 400, users, true, none, false⟩
  else
    match req.weight, req.height with
    | some weightKg, some heightM =>
      if weightKg ≤ 0 ∨ heightM ≤ 0 then
        ⟨.error invalidInputMsg 400, users, true, none, false⟩
      else
        let bmi := calculateBMI weightKg heightM
        let category := getBMICategory bmi
        let newUser : User := ⟨req.name, weightKg, heightM, bmi, category⟩
        let users' := users ++ [newUser]
        ⟨.redirect "/?status=success" 303, users', true,
         some (saveUserData users'), writeFails⟩
    | _, _ =>
      ⟨.error invalidInputMsg 400, users, true, none, false⟩

/-- Model of Go `%.2f` formatting on the embedded rational value. -/
def fmt2 (q : ℚ) : String :=
  let c : ℤ := round (q * 100)
  let sign := if c < 0 then "-" else ""
  let n := c.natAbs
  sign ++ toString (n / 100) ++ "." ++
    (if n % 100 < 10 then "0" else "") ++ toString (n % 100)

/-- The success banner of the root handler, built from one record. -/
def successMsg (u : User) : String :=
  "Success! " ++ u.name ++ "\x27s BMI (" ++ fmt2 u.bmi ++
    ") calculated and saved."

/-- The anonymous `GET /` handler of `main`.  On `status=success` it
indexes `users[len(users)-1]` unconditionally; the out-of-range panic
on an empty list is the `none` result. -/
def rootHandler (status : String) (users : List User) : Option ViewModel :=
  if status = "success" then
    match users.get? (users.length - 1) with
    | some u => some ⟨users, some (successMsg u)⟩
    | none => none
  else
    some ⟨users, none⟩

/-! ## Helper lemmas -/

theorem unmarshalUser_marshalUser (u : User) :
    unmarshalUser (marshalUser u) = some u := rfl

theorem unmarshalUsers_marshalUsers (users : List User) :
    unmarshalUsers (marshalUsers users) = some users := by
  induction users with
  | nil => rfl
  | cons u us ih =>
    simp only [marshalUsers, unmarshalUsers, List.map_cons, List.mapM_cons,
      unmarshalUser_marshalUser] at ih ⊢
    rw [ih]
    rfl

theorem get?_pred_length_eq_getLast? :
    ∀ {α : Type} (l : List α), l.get? (l.length - 1) = l.getLast?
  | _, [] => rfl
  | _, [_] => rfl
  | _, a :: b :: t => by
    have ih := get?_pred_length_eq_getLast? (b :: t)
    simp only [List.length_cons, Nat.add_sub_cancel] at ih ⊢
    rw [List.getLast?_cons_cons, ← ih]
    rfl

/-! ## Claim theorems -/

/-- Claim C1, counterexample: the BMI value `24.95` is non-negative (and
not NaN, being a rational), yet `getBMICategory` returns
"Cannot interpret" for it, so the default branch is reachable for
non-negative real input and there is a gap between the 24.9/25.0
brackets. -/
theorem c1_counterexample :
    (0 : ℚ) ≤ 24.95 ∧ getBMICategory 24.95 = "Cannot interpret" := by
  constructor
  · norm_num
  · norm_num [getBMICategory]

/-- Claim C1, amended: `getBMICategory` returns "Cannot interpret"
exactly for values in the open gaps (24.9, 25.0) and (29.9, 30.0);
every value outside these two gaps (in particular every non-negative
value outside them) falls into one of the four named categories. -/
theorem getBMICategory_default_iff (bmi : ℚ) :
    (getBMICategory bmi = "Cannot interpret" ↔
      ((24.9 : ℚ) < bmi ∧ bmi < 25.0) ∨ ((29.9 : ℚ) < bmi ∧ bmi < 30.0)) ∧
    (¬ (((24.9 : ℚ) < bmi ∧ bmi < 25.0) ∨ ((29.9 : ℚ) < bmi ∧ bmi < 30.0)) →
      getBMICategory bmi = "Underweight" ∨ getBMICategory bmi = "Normal Weight" ∨
      getBMICategory bmi = "Overweight" ∨ getBMICategory bmi = "Obesity") := by
  have key : getBMICategory bmi = "Cannot interpret" ↔
      ((24.9 : ℚ) < bmi ∧ bmi < 25.0) ∨ ((29.9 : ℚ) < bmi ∧ bmi < 30.0) := by
    unfold getBMICategory
    split_ifs with h1 h2 h3 h4
    · exact iff_of_false (by decide) (by rintro (⟨a, b⟩ | ⟨a, b⟩) <;> linarith)
    · exact iff_of_false (by decide)
        (by rintro (⟨a, b⟩ | ⟨a, b⟩) <;> linarith [h2.1, h2.2])
    · exact iff_of_false (by decide)
        (by rintro (⟨a, b⟩ | ⟨a, b⟩) <;> linarith [h3.1, h3.2])
    · exact iff_of_false (by decide) (by rintro (⟨a, b⟩ | ⟨a, b⟩) <;> linarith)
    · refine iff_of_true rfl ?_
      push_neg at h1 h2 h3 h4
      rcases lt_or_le bmi 25.0 with hlt | hge
      · exact Or.inl ⟨by linarith [h2 h1], hlt⟩
      · exact Or.inr ⟨by linarith [h3 hge], h4⟩
  refine ⟨key, fun hgap => ?_⟩
  have hne : getBMICategory bmi ≠ "Cannot interpret" := fun h => hgap (key.mp h)
  unfold getBMICategory at hne ⊢
  split_ifs at hne ⊢ <;> simp_all

/-- Claim C1, witness for the amended theorem: at `bmi = 20` the value
lies outside both gaps and the result is one of the four categories. -/
theorem getBMICategory_default_iff_witness :
    getBMICategory 20 = "Underweight" ∨ getBMICategory 20 = "Normal Weight" ∨
    getBMICategory 20 = "Overweight" ∨ getBMICategory 20 = "Obesity" :=
  (getBMICategory_default_iff 20).2 (by norm_num)

/-- Claim C2: for positive height, `calculateBMI` is exactly
`weightKg / (heightM * heightM)`; for non-positive height it is exactly
`0` (in particular never negative). -/
theorem calculateBMI_spec (w h : ℚ) :
    (0 < h → calculateBMI w h = w / (h * h)) ∧
    (h ≤ 0 → calculateBMI w h = 0) := by
  constructor
  · intro hp
    unfold calculateBMI
    rw [if_neg (not_le.mpr hp)]
  · intro hn
    unfold calculateBMI
    rw [if_pos hn]

/-- Claim C2, witness: evaluated at the spec scenario
`weight = 75.5, height = 1.75` and at a non-positive height. -/
theorem calculateBMI_spec_witness :
    ((0 : ℚ) < 1.75 ∧ calculateBMI 75.5 1.75 = 75.5 / (1.75 * 1.75)) ∧
    ((-1 : ℚ) ≤ 0 ∧ calculateBMI 75.5 (-1) = 0) :=
  ⟨⟨by norm_num, (calculateBMI_spec 75.5 1.75).1 (by norm_num)⟩,
   ⟨by norm_num, (calculateBMI_spec 75.5 (-1)).2 (by norm_num)⟩⟩

/-- Claim C7: the classification boundary values map as
`18.49 → Underweight`, `18.5 → Normal Weight`, `24.9 → Normal Weight`,
`25.0 → Overweight`, `29.9 → Overweight`, `30.0 → Obesity`. -/
theorem getBMICategory_boundaries :
    getBMICategory 18.49 = "Underweight" ∧
    getBMICategory 18.5 = "Normal Weight" ∧
    getBMICategory 24.9 = "Normal Weight" ∧
    getBMICategory 25.0 = "Overweight" ∧
    getBMICategory 29.9 = "Overweight" ∧
    getBMICategory 30.0 = "Obesity" := by
  refine ⟨?_, ?_, ?_, ?_, ?_, ?_⟩ <;> norm_num [getBMICategory]

/-- Claim C3: a POST whose weight or height fails to parse or parses to
a value `≤ 0` gets the 400 invalid-input message and leaves the record
list unchanged with no file write; and no upper bound is enforced, so
any positive pair is accepted with the success redirect. -/
theorem calculateHandler_validation :
    (∀ (req : Request) (users : List User) (f : Bool),
      req.method = "POST" → req.parseFormOk = true →
      (req.weight = none ∨ req.height = none ∨
        (∃ w, req.weight = some w ∧ w ≤ 0) ∨
        (∃ h, req.height = some h ∧ h ≤ 0)) →
      calculateHandler req users f =
        ⟨.error invalidInputMsg 400, users, true, none, false⟩) ∧
    (∀ (req : Request) (users : List User) (f : Bool) (w h : ℚ),
      req.method = "POST" → req.parseFormOk = true →
      req.weight = some w → req.height = some h → 0 < w → 0 < h →
      (calculateHandler req users f).response =
        .redirect "/?status=success" 303) := by
  constructor
  · rintro ⟨m, pf, nm, wq, hq⟩ users f hm hp hbad
    simp only at hm hp
    subst hm; subst hp
    rcases hbad with hw | hh | ⟨w, hw, hwle⟩ | ⟨h, hh, hhle⟩
    · simp only at hw
      subst hw
      cases hq <;> simp [calculateHandler]
    · simp only at hh
      subst hh
      cases wq <;> simp [calculateHandler]
    · simp only at hw
      subst hw
      cases hq with
      | none => simp [calculateHandler]
      | some h => simp [calculateHandler, hwle]
    · simp only at hh
      subst hh
      cases wq with
      | none => simp [calculateHandler]
      | some w => simp [calculateHandler, hhle]
  · rintro ⟨m, pf, nm, wq, hq⟩ users f w h hm hp hw hh hwp hhp
    simp only at hm hp hw hh
    subst hm; subst hp; subst hw; subst hh
    simp [calculateHandler, not_le.mpr hwp, not_le.mpr hhp]

/-- Claim C3, witness: the spec scenario `weight=0, height=1.70` is
rejected with 400 and the record list is unchanged; `weight=60` with
the same height succeeds. -/
theorem calculateHandler_validation_witness :
    calculateHandler ⟨"POST", true, "a", some 0, some 1.70⟩ [] false =
      ⟨.error invalidInputMsg 400, [], true, none, false⟩ ∧
    (calculateHandler ⟨"POST", true, "a", some 60, some 1.70⟩ [] false).response =
      .redirect "/?status=success" 303 :=
  ⟨calculateHandler_validation.1 _ _ _ rfl rfl
      (Or.inr (Or.inr (Or.inl ⟨0, rfl, le_refl 0⟩))),
   calculateHandler_validation.2 _ _ _ 60 1.70 rfl rfl rfl rfl
      (by norm_num) (by norm_num)⟩

/-- Claim C4: when the file write fails on a valid submission, the
handler logs the failure, keeps the in-memory append, and still
responds with the success redirect. -/
theorem calculateHandler_save_failure (req : Request) (users : List User)
    (w h : ℚ) (hm : req.method = "POST") (hp : req.parseFormOk = true)
    (hw : req.weight = some w) (hh : req.height = some h)
    (hwp : 0 < w) (hhp : 0 < h) :
    calculateHandler req users true =
      ⟨.redirect "/?status=success" 303,
       users ++ [⟨req.name, w, h, calculateBMI w h,
                  getBMICategory (calculateBMI w h)⟩],
       true,
       some (saveUserData (users ++ [⟨req.name, w, h, calculateBMI w h,
                  getBMICategory (calculateBMI w h)⟩])),
       true⟩ := by
  obtain ⟨m, pf, nm, wq, hq⟩ := req
  simp only at hm hp hw hh ⊢
  subst hm; subst hp; subst hw; subst hh
  simp [calculateHandler, not_le.mpr hwp, not_le.mpr hhp]

/-- Claim C4, witness: a concrete valid submission with a failing file
write still appends and redirects with success. -/
theorem calculateHandler_save_failure_witness :
    calculateHandler ⟨"POST", true, "a", some 50, some 1.60⟩ [] true =
      ⟨.redirect "/?status=success" 303,
       [⟨"a", 50, 1.60, calculateBMI 50 1.60,
         getBMICategory (calculateBMI 50 1.60)⟩],
       true,
       some (saveUserData [⟨"a", 50, 1.60, calculateBMI 50 1.60,
         getBMICategory (calculateBMI 50 1.60)⟩]),
       true⟩ :=
  calculateHandler_save_failure ⟨"POST", true, "a", some 50, some 1.60⟩ []
    50 1.60 rfl rfl rfl rfl (by norm_num) (by norm_num)

/-- Claim C6: every record `calculateHandler` adds carries `bmi`
computed by `calculateBMI` from its own weight and height and
`category` computed by `getBMICategory` from that `bmi`, and the
handler only ever appends: the prior records are returned untouched. -/
theorem calculateHandler_append_consistent (req : Request)
    (users : List User) (f : Bool) :
    (calculateHandler req users f).users = users ∨
    ∃ w h, req.weight = some w ∧ req.height = some h ∧ 0 < w ∧ 0 < h ∧
      (calculateHandler req users f).users =
        users ++ [⟨req.name, w, h, calculateBMI w h,
                   getBMICategory (calculateBMI w h)⟩] := by
  obtain ⟨m, pf, nm, wq, hq⟩ := req
  cases wq with
  | none => cases hq <;> simp [calculateHandler] <;> split_ifs <;> simp
  | some w =>
    cases hq with
    | none =>
      simp [calculateHandler]
      split_ifs <;> simp
    | some h =>
      by_cases hm : m ≠ "POST"
      · simp [calculateHandler, hm]
      · by_cases hp : pf
        · by_cases hbad : w ≤ 0 ∨ h ≤ 0
          · simp [calculateHandler, hm, hp, hbad]
          · push_neg at hbad
            refine Or.inr ⟨w, h, rfl, rfl, hbad.1, hbad.2, ?_⟩
            simp [calculateHandler, hm, hp, not_le.mpr hbad.1,
              not_le.mpr hbad.2]
        · simp [calculateHandler, hm, hp]

/-- Claim C9: a request to `/calculate` with any method other than POST
gets a 405 response, the form is not read, no record is appended and no
file write is attempted. -/
theorem calculateHandler_wrong_method (req : Request) (users : List User)
    (f : Bool) (h : req.method ≠ "POST") :
    calculateHandler req users f =
      ⟨.error "Method not allowed" 405, users, false, none, false⟩ := by
  unfold calculateHandler
  rw [if_pos h]

/-- Claim C9, witness: a GET to `/calculate` on a concrete state. -/
theorem calculateHandler_wrong_method_witness :
    calculateHandler ⟨"GET", true, "a", some 50, some 1.60⟩ [] false =
      ⟨.error "Method not allowed" 405, [], false, none, false⟩ :=
  calculateHandler_wrong_method ⟨"GET", true, "a", some 50, some 1.60⟩ []
    false (by decide)

/-- Claim C5: `loadUserData` returns the empty record list when the
file is absent, terminates fatally when the file is present but does
not unmarshal, and never reports a loaded list except by a successful
unmarshal of the file content. -/
theorem loadUserData_spec :
    loadUserData .notExist = .ok [] ∧
    (∀ j : Json, unmarshalUsers j = none →
      loadUserData (.content j) = .fatal) ∧
    (∀ (j : Json) (users : List User),
      loadUserData (.content j) = .ok users →
      unmarshalUsers j = some users) := by
  refine ⟨rfl, fun j hj => ?_, fun j users h => ?_⟩
  · simp only [loadUserData]
    rw [hj]
  · cases heq : unmarshalUsers j with
    | none =>
      have hf : loadUserData (.content j) = .fatal := by
        simp only [loadUserData]
        rw [heq]
      rw [hf] at h
      exact absurd h (by simp)
    | some us =>
      have hok : loadUserData (.content j) = .ok us := by
        simp only [loadUserData]
        rw [heq]
      rw [hok] at h
      injection h with h'
      rw [h']

/-- Claim C5, witness: a JSON string is not a record array, so loading
it is fatal; evaluated at the concrete malformed content. -/
theorem loadUserData_spec_witness :
    unmarshalUsers (.str "oops") = none ∧
    loadUserData (.content (.str "oops")) = .fatal :=
  ⟨rfl, loadUserData_spec.2.1 (.str "oops") rfl⟩

/-- Claim C8: `save(load())` is idempotent on persisted file content:
if one load/save pass turns content `j` into content `j'`, a second
pass reproduces `j'` exactly (marshalling is deterministic, so equal
trees are byte-for-byte equal files). -/
theorem saveAfterLoad_idempotent (j j' : Json)
    (h : saveAfterLoad j = some j') : saveAfterLoad j' = some j' := by
  unfold saveAfterLoad at h ⊢
  cases heq : unmarshalUsers j with
  | none =>
    have hf : loadUserData (.content j) = .fatal := by
      simp only [loadUserData]
      rw [heq]
    rw [hf] at h
    exact absurd h (by simp)
  | some us =>
    have hok : loadUserData (.content j) = .ok us := by
      simp only [loadUserData]
      rw [heq]
    rw [hok] at h
    change some (saveUserData us) = some j' at h
    injection h with h'
    subst h'
    have hok2 : loadUserData (.content (saveUserData us)) = .ok us := by
      simp only [loadUserData, saveUserData]
      rw [unmarshalUsers_marshalUsers]
    rw [hok2]

/-- Claim C8, witness: applied to the persisted empty record set. -/
theorem saveAfterLoad_idempotent_witness :
    saveAfterLoad (.arr []) = some (.arr []) :=
  saveAfterLoad_idempotent (.arr []) (.arr []) rfl

/-- Claim C10: on `GET /?status=success` the handler indexes
`users[len(users)-1]` unconditionally, so with an empty record set the
access is out of bounds (modelled by `none`); whenever the set is
non-empty the success message is built from its last record. -/
theorem rootHandler_success_spec :
    rootHandler "success" [] = none ∧
    (∀ (users : List User) (u : User), users.getLast? = some u →
      rootHandler "success" users = some ⟨users, some (successMsg u)⟩) := by
  refine ⟨rfl, fun users u h => ?_⟩
  unfold rootHandler
  rw [if_pos rfl, get?_pred_length_eq_getLast?, h]

/-- Claim C10, witness: on a concrete one-record set the most recent
record's message is rendered. -/
theorem rootHandler_success_spec_witness :
    rootHandler "success" [⟨"a", 50, 1.60, 50 / (1.60 * 1.60), "Normal Weight"⟩] =
      some ⟨[⟨"a", 50, 1.60, 50 / (1.60 * 1.60), "Normal Weight"⟩],
            some (successMsg ⟨"a", 50, 1.60, 50 / (1.60 * 1.60), "Normal Weight"⟩)⟩ :=
  rootHandler_success_spec.2 _ _ rfl

